import Mathlib

/-!
Shallow embedding of the notifications client of this repository
(`ETWeb/frontend/src/components/Dashboard/notifications/Notifications.js` plus the
axios service wrappers), together with spec-modelled definitions for the
server-side pieces (NotificationStore / InvitationResolver / NotificationService)
that are described in the specification but whose code is not in the sources.
-/

namespace WorkSync

/-- A related project reference (`notification.project` in the JS record). -/
structure Project where
  id : Nat
  name : String
deriving DecidableEq

/-- The invitation sub-record (`notification.invitation`): spec §3 gives it
`teamId`, `invitedByUserId` and the `accepted` flag; the client code only ever
reads and writes `accepted`. -/
structure Invitation where
  teamId : Nat
  invitedByUserId : Nat
  accepted : Bool
deriving DecidableEq

/-- A client-side notification record, with the fields the JS component reads:
`id`, `notification_type`, `title`, `message`, `created_at`, `project`,
`invitation`, `is_read`. -/
structure Notification where
  id : Nat
  notification_type : String
  title : String
  message : String
  created_at : String
  project : Option Project
  invitation : Option Invitation
  is_read : Bool
deriving DecidableEq

/-- The component state initialised in the constructor of `Notifications`:
`notifications`, `loading`, `error`, `info`, `acceptingId`, `markingIds`,
`markAllInProgress`.  The JS `Set` of ids is modelled as a list with
set-style insert/erase. -/
structure ClientState where
  notifications : List Notification
  loading : Bool
  error : Option String
  info : Option String
  acceptingId : Option Nat
  markingIds : List Nat
  markAllInProgress : Bool
deriving DecidableEq

/-- The constructor's initial state. -/
def initialState : ClientState :=
  { notifications := [], loading := true, error := none, info := none,
    acceptingId := none, markingIds := [], markAllInProgress := false }

/-- The component together with its `_isMounted` instance flag. -/
structure Component where
  mounted : Bool
  state : ClientState
deriving DecidableEq

/-- `setStateSafely`: applies the state updater only when `_isMounted` is true
(lines 28-32 of Notifications.js). -/
def setStateSafely (u : ClientState → ClientState) (c : Component) : Component :=
  if c.mounted then { c with state := u c.state } else c

/-- Result of an awaited service call, as seen by the client handler. -/
inductive SvcResult where
  | ok
  | err (msg : String)
deriving DecidableEq

/-- The first `setStateSafely` of `handleMarkRead` (line 59): add the id to
`markingIds`. -/
def markReadPendingUpdate (nid : Nat) (s : ClientState) : ClientState :=
  { s with markingIds := s.markingIds.insert nid }

/-- The success updater of `handleMarkRead` (lines 62-69): set `is_read` on the
matching notification and delete the id from `markingIds`. -/
def markReadSuccessUpdate (nid : Nat) (s : ClientState) : ClientState :=
  { s with
    notifications := s.notifications.map
      (fun m => if m.id = nid then { m with is_read := true } else m),
    markingIds := s.markingIds.erase nid }

/-- The error updater of `handleMarkRead` (lines 73-80): surface the message
and delete the id from `markingIds`; `notifications` is untouched. -/
def markReadErrorUpdate (msg : String) (nid : Nat) (s : ClientState) : ClientState :=
  { s with error := some msg, markingIds := s.markingIds.erase nid }

/-- `handleMarkRead` up to the point where the service call is issued
(lines 55-61): early return when the record is already read, otherwise mark the
id in flight.  The boolean reports whether a service request is issued. -/
def handleMarkReadPre (n : Notification) (c : Component) : Component × Bool :=
  if n.is_read then (c, false)
  else (setStateSafely (markReadPendingUpdate n.id) c, true)

/-- Full `handleMarkRead` (lines 55-82), parameterised by the outcome of the
awaited `markNotificationRead` call.  The boolean reports whether a service
request was issued. -/
def handleMarkRead (res : SvcResult) (n : Notification) (c : Component) :
    Component × Bool :=
  if n.is_read then (c, false)
  else
    let c1 := setStateSafely (markReadPendingUpdate n.id) c
    match res with
    | .ok => (setStateSafely (markReadSuccessUpdate n.id) c1, true)
    | .err msg => (setStateSafely (markReadErrorUpdate msg n.id) c1, true)

/-- The first `setStateSafely` of `handleMarkAll` (line 85). -/
def markAllPendingUpdate (s : ClientState) : ClientState :=
  { s with markAllInProgress := true, error := none, info := none }

/-- The success updater of `handleMarkAll` (lines 88-92). -/
def markAllSuccessUpdate (s : ClientState) : ClientState :=
  { s with
    notifications := s.notifications.map (fun m => { m with is_read := true }),
    markAllInProgress := false,
    info := some "All notifications marked as read." }

/-- The error updater of `handleMarkAll` (line 96). -/
def markAllErrorUpdate (msg : String) (s : ClientState) : ClientState :=
  { s with error := some msg, markAllInProgress := false }

/-- Full `handleMarkAll` (lines 84-98); it always issues the service request. -/
def handleMarkAll (res : SvcResult) (c : Component) : Component × Bool :=
  let c1 := setStateSafely markAllPendingUpdate c
  match res with
  | .ok => (setStateSafely markAllSuccessUpdate c1, true)
  | .err msg => (setStateSafely (markAllErrorUpdate msg) c1, true)

/-- The first `setStateSafely` of `handleAcceptInvitation` (line 101). -/
def acceptPendingUpdate (nid : Nat) (s : ClientState) : ClientState :=
  { s with acceptingId := some nid, error := none, info := none }

/-- The info message built on a successful accept (line 111). -/
def joinedMsg (n : Notification) : String :=
  "You have joined the project \"" ++
    (match n.project with | some p => p.name | none => "") ++ "\"."

/-- The success updater of `handleAcceptInvitation` (lines 104-112): the
matching notification gets `is_read := true` and, when the invitation
sub-record is present, `accepted := true`. -/
def acceptSuccessUpdate (n : Notification) (s : ClientState) : ClientState :=
  { s with
    notifications := s.notifications.map
      (fun m => if m.id = n.id then
        { m with is_read := true,
                 invitation := m.invitation.map (fun i => { i with accepted := true }) }
      else m),
    acceptingId := none,
    info := some (joinedMsg n) }

/-- The error updater of `handleAcceptInvitation` (line 116). -/
def acceptErrorUpdate (msg : String) (s : ClientState) : ClientState :=
  { s with error := some msg, acceptingId := none }

/-- `handleAcceptInvitation` up to the point where the service call is issued
(lines 100-103): there is no guard at all, the request is always issued. -/
def handleAcceptPre (n : Notification) (c : Component) : Component × Bool :=
  (setStateSafely (acceptPendingUpdate n.id) c, true)

/-- Full `handleAcceptInvitation` (lines 100-118). -/
def handleAcceptInvitation (res : SvcResult) (n : Notification) (c : Component) :
    Component × Bool :=
  let c1 := setStateSafely (acceptPendingUpdate n.id) c
  match res with
  | .ok => (setStateSafely (acceptSuccessUpdate n) c1, true)
  | .err msg => (setStateSafely (acceptErrorUpdate msg) c1, true)

/-- `disabled` attribute of the "Accept Invitation" button (line 132):
`acceptingId === notification.id`. -/
def acceptButtonDisabled (s : ClientState) (n : Notification) : Bool :=
  match s.acceptingId with
  | some i => i = n.id
  | none => false

/-- `disabled` attribute of the "Mark as read" button in the invitation branch
(line 140): `isMarking`, i.e. membership of the id in `markingIds`. -/
def markReadButtonDisabledInvite (s : ClientState) (n : Notification) : Bool :=
  s.markingIds.contains n.id

/-- `disabled` attribute of the "Mark as read" button in the default branch
(line 154): `notification.is_read || isMarking`. -/
def markReadButtonDisabledDefault (s : ClientState) (n : Notification) : Bool :=
  n.is_read || s.markingIds.contains n.id

/-- Colour of the error alert in `render` (line 232). -/
def errorAlertColor : String := "danger"

/-- Colour of the success/info alert in `render` (line 238). -/
def infoAlertColor : String := "success"

/-- One completed invocation of a mutation handler: which handler ran, on which
record, and with which service outcome.  Used to talk about arbitrary
interleavings of handler completions. -/
inductive HandlerStep where
  | stepMarkRead (res : SvcResult) (n : Notification)
  | stepMarkAll (res : SvcResult)
  | stepAccept (res : SvcResult) (n : Notification)

/-- Apply one handler completion to the component. -/
def applyHandlerStep (st : HandlerStep) (c : Component) : Component :=
  match st with
  | .stepMarkRead res n => (handleMarkRead res n c).1
  | .stepMarkAll res => (handleMarkAll res c).1
  | .stepAccept res n => (handleAcceptInvitation res n c).1

/-- Run a sequence of handler completions. -/
def runHandlerSteps (l : List HandlerStep) (c : Component) : Component :=
  l.foldl (fun c st => applyHandlerStep st c) c

/-- The `accepted` flag of the invitation sub-record, `false` when absent. -/
def invitationAcceptedFlag (n : Notification) : Bool :=
  match n.invitation with
  | some i => i.accepted
  | none => false

/-- Per-record monotonicity: `is_read` and `invitation.accepted` never go from
true back to false. -/
def notifMono (a b : Notification) : Prop :=
  (a.is_read = true → b.is_read = true) ∧
  (invitationAcceptedFlag a = true → invitationAcceptedFlag b = true)

/-- Modelled from the spec: the server-side
`NotificationStore.compareAndSetInvitationAccepted` (§4.1) is not in the
repository sources (only its client caller is).  It atomically flips the
invitation's `accepted` flag from false to true, returning `Accepted` exactly
when this call performed the transition and `AlreadyAccepted` otherwise. -/
inductive AcceptOutcome where
  | Accepted
  | AlreadyAccepted
deriving DecidableEq

/-- Modelled from the spec: `InvitationResolver.resolve` outcomes (§4.2),
restricted to the success path (`Rejected` needs an external grant failure,
which is outside this claim). -/
inductive ResolveResult where
  | Granted
  | AlreadyGranted
deriving DecidableEq

/-- Modelled from the spec: the store-side state of one invitation, the
`accepted` flag together with the number of membership grants that have been
issued for it. -/
structure InviteState where
  accepted : Bool
  grantCount : Nat
deriving DecidableEq

/-- Modelled from the spec: the atomic compare-and-set of §4.1.  Each call is
a single atomic step, so a caller never observes a partially applied state. -/
def casInvitationAccepted (st : InviteState) : AcceptOutcome × InviteState :=
  if st.accepted then (.AlreadyAccepted, st)
  else (.Accepted, { st with accepted := true })

/-- Modelled from the spec: `InvitationResolver.resolve` (§4.2): on
`AlreadyAccepted` short-circuit to `AlreadyGranted` without touching
membership; on `Accepted` issue the membership grant. -/
def resolveInvitation (st : InviteState) : ResolveResult × InviteState :=
  match casInvitationAccepted st with
  | (.AlreadyAccepted, st1) => (.AlreadyGranted, st1)
  | (.Accepted, st1) => (.Granted, { st1 with grantCount := st1.grantCount + 1 })

/-- Modelled from the spec: `k` concurrent `acceptInvitation` callers racing on
the same notification id.  Because each caller's compare-and-set is one atomic
step and all callers are identical, every interleaving is this sequential
composition. -/
def runAccepts (k : Nat) (st : InviteState) : List ResolveResult × InviteState :=
  match k with
  | 0 => ([], st)
  | j + 1 =>
    let (r, st1) := resolveInvitation st
    let (rs, st2) := runAccepts j st1
    (r :: rs, st2)

/-- Modelled from the spec: the server-side `NotificationService.markAllRead`
(§4.3) is not in the repository sources (only its client caller is).  It marks
every notification of the recipient read and returns the count of
notifications it itself transitioned from unread to read. -/
def serverMarkAllRead (l : List Notification) : List Notification × Nat :=
  (l.map (fun n => { n with is_read := true }),
   (l.filter (fun n => n.is_read = false)).length)

/-- A concrete unread plain notification used in counterexamples. -/
def nUnreadEx : Notification :=
  { id := 1, notification_type := "mention", title := "t", message := "m",
    created_at := "2024-01-01", project := none, invitation := none,
    is_read := false }

/-- A concrete unread project-invitation notification. -/
def nInviteEx : Notification :=
  { id := 2, notification_type := "project_invitation", title := "inv",
    message := "join", created_at := "2024-01-02",
    project := some { id := 7, name := "P" },
    invitation := some { teamId := 7, invitedByUserId := 3, accepted := false },
    is_read := false }

/-- A mounted component whose only notification is `nUnreadEx`, with its id
already in the in-flight set `markingIds`. -/
def cInFlightEx : Component :=
  { mounted := true,
    state := { notifications := [nUnreadEx], loading := false, error := none,
               info := none, acceptingId := none, markingIds := [1],
               markAllInProgress := false } }

/-- A mounted component holding `nUnreadEx` and `nInviteEx`, with nothing in
flight. -/
def cIdleEx : Component :=
  { mounted := true,
    state := { notifications := [nUnreadEx, nInviteEx], loading := false,
               error := none, info := none, acceptingId := none,
               markingIds := [], markAllInProgress := false } }

/-- An unmounted component (after `componentWillUnmount`). -/
def cUnmountedEx : Component :=
  { mounted := false,
    state := { notifications := [nUnreadEx], loading := false, error := none,
               info := none, acceptingId := none, markingIds := [],
               markAllInProgress := false } }

/-- Result of the awaited `fetchNotifications` call. -/
inductive FetchResult where
  | ok (data : List Notification)
  | err (msg : String)
deriving DecidableEq

/-- The first `setStateSafely` of `loadNotifications` (line 44). -/
def loadPendingUpdate (s : ClientState) : ClientState :=
  { s with loading := true, error := none, info := none }

/-- The success updater of `loadNotifications` (line 47). -/
def loadSuccessUpdate (data : List Notification) (s : ClientState) : ClientState :=
  { s with notifications := data, loading := false }

/-- The error updater of `loadNotifications` (line 51). -/
def loadErrorUpdate (msg : String) (s : ClientState) : ClientState :=
  { s with error := some msg, loading := false }

/-- Full `loadNotifications` (lines 43-53). -/
def loadNotifications (res : FetchResult) (c : Component) : Component :=
  let c1 := setStateSafely loadPendingUpdate c
  match res with
  | .ok data => setStateSafely (loadSuccessUpdate data) c1
  | .err msg => setStateSafely (loadErrorUpdate msg) c1

/-- `handleMarkRead` as it is invoked from `renderNotification`: the argument
passed to the handler is the record currently held in state with the given id
(line 139/153 pass the rendered `notification`).  When no record with that id
is rendered, no invocation happens. -/
def handleMarkReadOn (res : SvcResult) (nid : Nat) (c : Component) :
    Component × Bool :=
  match c.state.notifications.find? (fun m => m.id == nid) with
  | some n => handleMarkRead res n c
  | none => (c, false)

/-- A concrete already-read notification with the same id as `nUnreadEx`. -/
def nReadEx : Notification :=
  { nUnreadEx with is_read := true }

/-- A mounted component whose record is already read and whose id is both in
`markingIds` and equal to `acceptingId`. -/
def cBusyEx : Component :=
  { mounted := true,
    state := { notifications := [nReadEx], loading := false, error := none,
               info := none, acceptingId := some 1, markingIds := [1],
               markAllInProgress := false } }

/-- A concrete list with two unread and one read notification. -/
def lMixedEx : List Notification :=
  [nUnreadEx, nInviteEx, nReadEx]

theorem setStateSafely_unmounted (u : ClientState → ClientState) (c : Component)
    (h : c.mounted = false) : setStateSafely u c = c := by
  simp [setStateSafely, h]

theorem forall₂_map_self {R : Notification → Notification → Prop}
    (f : Notification → Notification) (h : ∀ a, R a (f a)) :
    ∀ l : List Notification, List.Forall₂ R l (l.map f)
  | [] => List.Forall₂.nil
  | a :: l => List.Forall₂.cons (h a) (forall₂_map_self f h l)

theorem handleMarkRead_unmounted (res : SvcResult) (n : Notification)
    (c : Component) (h : c.mounted = false) : (handleMarkRead res n c).1 = c := by
  cases res <;> cases hr : n.is_read <;>
    simp [handleMarkRead, hr, setStateSafely, h]

theorem handleMarkAll_unmounted (res : SvcResult) (c : Component)
    (h : c.mounted = false) : (handleMarkAll res c).1 = c := by
  cases res <;> simp [handleMarkAll, setStateSafely, h]

theorem handleAcceptInvitation_unmounted (res : SvcResult) (n : Notification)
    (c : Component) (h : c.mounted = false) :
    (handleAcceptInvitation res n c).1 = c := by
  cases res <;> simp [handleAcceptInvitation, setStateSafely, h]

theorem loadNotifications_unmounted (res : FetchResult) (c : Component)
    (h : c.mounted = false) : loadNotifications res c = c := by
  cases res <;> simp [loadNotifications, setStateSafely, h]

/-- Claim C10: after `componentWillUnmount` has set `_isMounted` to false, no
pending handler completion (success or error, for any of the async handlers)
mutates the component state: every state update is routed through
`setStateSafely`, which is a no-op when `_isMounted` is false. -/
theorem unmounted_state_frozen (c : Component) (h : c.mounted = false) :
    (∀ u, setStateSafely u c = c) ∧
    (∀ res n, (handleMarkRead res n c).1 = c) ∧
    (∀ res, (handleMarkAll res c).1 = c) ∧
    (∀ res n, (handleAcceptInvitation res n c).1 = c) ∧
    (∀ res, loadNotifications res c = c) :=
  ⟨fun u => setStateSafely_unmounted u c h,
   fun res n => handleMarkRead_unmounted res n c h,
   fun res => handleMarkAll_unmounted res c h,
   fun res n => handleAcceptInvitation_unmounted res n c h,
   fun res => loadNotifications_unmounted res c h⟩

/-- Witness for C10 at a concrete unmounted component. -/
theorem unmounted_state_frozen_app :
    setStateSafely markAllPendingUpdate cUnmountedEx = cUnmountedEx ∧
    (handleMarkRead .ok nUnreadEx cUnmountedEx).1 = cUnmountedEx :=
  ⟨(unmounted_state_frozen cUnmountedEx rfl).1 _,
   (unmounted_state_frozen cUnmountedEx rfl).2.1 _ _⟩

/-- Claim C3: after a successful `acceptInvitation`, the client's local record
for that notification has `is_read = true`, and when it carries an invitation
sub-record, `invitation.accepted = true`. -/
theorem accept_success_forces_read (c : Component) (n : Notification)
    (h : c.mounted = true) :
    ∀ m ∈ ((handleAcceptInvitation .ok n c).1).state.notifications,
      m.id = n.id →
        m.is_read = true ∧ ∀ i, m.invitation = some i → i.accepted = true := by
  intro m hm hid
  have hmem : m ∈ c.state.notifications.map
      (fun m => if m.id = n.id then
        { m with is_read := true,
                 invitation := m.invitation.map (fun i => { i with accepted := true }) }
      else m) := by
    simpa [handleAcceptInvitation, setStateSafely, h, acceptPendingUpdate,
      acceptSuccessUpdate] using hm
  rcases List.mem_map.mp hmem with ⟨m0, _, hfm⟩
  by_cases hc : m0.id = n.id
  · rw [if_pos hc] at hfm
    refine ⟨by rw [← hfm], ?_⟩
    intro i hi
    rw [← hfm] at hi
    have hi' : m0.invitation.map (fun i => { i with accepted := true }) = some i := hi
    rcases Option.map_eq_some'.mp hi' with ⟨i0, _, hi0⟩
    rw [← hi0]
  · rw [if_neg hc] at hfm
    exact absurd (by rw [hfm]; exact hid) hc

/-- Witness for C3: the invitation record of `nInviteEx` in `cIdleEx` is read
after a successful accept. -/
theorem accept_success_forces_read_app :
    ({ nInviteEx with
        is_read := true,
        invitation := some { teamId := 7, invitedByUserId := 3, accepted := true } }
      : Notification).is_read = true :=
  (accept_success_forces_read cIdleEx nInviteEx rfl
    ({ nInviteEx with
        is_read := true,
        invitation := some { teamId := 7, invitedByUserId := 3, accepted := true } })
    (by decide) rfl).1

/-- Claim C9: a successful `handleMarkRead` on `n` changes only `n`'s
`is_read` field: every notification with a different id is unchanged, and the
matching record keeps every field other than `is_read`. -/
theorem markRead_success_frame (c : Component) (n : Notification)
    (h : c.mounted = true) (hr : n.is_read = false) :
    List.Forall₂ (fun before after =>
      (before.id ≠ n.id → after = before) ∧
      (before.id = n.id →
        after.id = before.id ∧
        after.notification_type = before.notification_type ∧
        after.title = before.title ∧
        after.message = before.message ∧
        after.created_at = before.created_at ∧
        after.project = before.project ∧
        after.invitation = before.invitation ∧
        after.is_read = true))
      c.state.notifications ((handleMarkRead .ok n c).1).state.notifications := by
  have hres : ((handleMarkRead .ok n c).1).state.notifications
      = c.state.notifications.map
        (fun m => if m.id = n.id then { m with is_read := true } else m) := by
    simp [handleMarkRead, hr, setStateSafely, h, markReadPendingUpdate,
      markReadSuccessUpdate]
  rw [hres]
  apply forall₂_map_self
  intro a
  by_cases hc : a.id = n.id
  · simp [hc]
  · simp [hc]

/-- Witness for C9 at `cIdleEx` and `nUnreadEx`. -/
theorem markRead_success_frame_app :
    List.Forall₂ (fun before after =>
      (before.id ≠ nUnreadEx.id → after = before) ∧
      (before.id = nUnreadEx.id →
        after.id = before.id ∧
        after.notification_type = before.notification_type ∧
        after.title = before.title ∧
        after.message = before.message ∧
        after.created_at = before.created_at ∧
        after.project = before.project ∧
        after.invitation = before.invitation ∧
        after.is_read = true))
      cIdleEx.state.notifications
      ((handleMarkRead .ok nUnreadEx cIdleEx).1).state.notifications :=
  markRead_success_frame cIdleEx nUnreadEx rfl rfl

/-- Claim C8: when a markRead or acceptInvitation service call fails, the
notifications list is unchanged (no `is_read` or `invitation.accepted` flag is
flipped), the id leaves the in-flight set, an error message is surfaced, and
the error styling differs from the success styling. -/
theorem handler_error_leaves_notifications (c : Component) (n : Notification)
    (msg : String) (h : c.mounted = true) (hr : n.is_read = false)
    (hm : n.id ∉ c.state.markingIds) :
    ((handleMarkRead (.err msg) n c).1.state.notifications = c.state.notifications) ∧
    ((handleMarkRead (.err msg) n c).1.state.markingIds = c.state.markingIds) ∧
    ((handleMarkRead (.err msg) n c).1.state.error = some msg) ∧
    ((handleAcceptInvitation (.err msg) n c).1.state.notifications = c.state.notifications) ∧
    ((handleAcceptInvitation (.err msg) n c).1.state.acceptingId = none) ∧
    ((handleAcceptInvitation (.err msg) n c).1.state.error = some msg) ∧
    errorAlertColor ≠ infoAlertColor := by
  have herase : (c.state.markingIds.insert n.id).erase n.id = c.state.markingIds := by
    rw [List.insert_of_not_mem hm, List.erase_cons_head]
  refine ⟨?_, ?_, ?_, ?_, ?_, ?_, by decide⟩ <;>
    simp [handleMarkRead, handleAcceptInvitation, hr, setStateSafely, h,
      markReadPendingUpdate, markReadErrorUpdate, acceptPendingUpdate,
      acceptErrorUpdate, herase]

/-- Witness for C8 at `cIdleEx` and `nUnreadEx`. -/
theorem handler_error_leaves_notifications_app :
    (handleMarkRead (.err "boom") nUnreadEx cIdleEx).1.state.notifications
      = cIdleEx.state.notifications ∧
    (handleMarkRead (.err "boom") nUnreadEx cIdleEx).1.state.error = some "boom" :=
  ⟨(handler_error_leaves_notifications cIdleEx nUnreadEx "boom" rfl rfl
      (by decide)).1,
   (handler_error_leaves_notifications cIdleEx nUnreadEx "boom" rfl rfl
      (by decide)).2.2.1⟩

/-- Counterexample for C2: with `nUnreadEx.id` already in `markingIds`,
invoking `handleMarkRead` still issues a service request and still mutates the
notifications state — the handler never consults the in-flight set. -/
theorem handleMarkRead_ignores_markingIds_cex :
    cInFlightEx.state.markingIds.contains nUnreadEx.id = true ∧
    (handleMarkRead .ok nUnreadEx cInFlightEx).2 = true ∧
    (handleMarkRead .ok nUnreadEx cInFlightEx).1.state.notifications
      ≠ cInFlightEx.state.notifications := by
  refine ⟨by decide, by decide, by decide⟩

/-- Claim C2 (amended): duplicate commands for an in-flight item are blocked at
the render layer, not inside the handlers: the "Mark as read" button is
disabled whenever the id is in `markingIds` (both render branches) and the
"Accept Invitation" button is disabled whenever `acceptingId` equals the id,
so the handler is not invoked; `handleMarkRead` itself rejects client-side
only notifications that are already read, issuing no request and leaving the
component unchanged. -/
theorem duplicate_commands_blocked_by_disabled (s : ClientState)
    (n : Notification) (res : SvcResult) (c : Component) :
    (s.markingIds.contains n.id = true →
      markReadButtonDisabledInvite s n = true ∧
      markReadButtonDisabledDefault s n = true) ∧
    (s.acceptingId = some n.id → acceptButtonDisabled s n = true) ∧
    (n.is_read = true → handleMarkRead res n c = (c, false)) := by
  refine ⟨?_, ?_, ?_⟩
  · intro hmem
    refine ⟨hmem, ?_⟩
    simp only [markReadButtonDisabledDefault, Bool.or_eq_true]
    exact Or.inr hmem
  · intro ha
    simp [acceptButtonDisabled, ha]
  · intro hr
    simp [handleMarkRead, hr]

/-- Witness for C2 (amended) at `cBusyEx` and `nReadEx`. -/
theorem duplicate_commands_blocked_by_disabled_app :
    (markReadButtonDisabledInvite cBusyEx.state nReadEx = true ∧
     markReadButtonDisabledDefault cBusyEx.state nReadEx = true) ∧
    acceptButtonDisabled cBusyEx.state nReadEx = true ∧
    handleMarkRead .ok nReadEx cBusyEx = (cBusyEx, false) :=
  ⟨(duplicate_commands_blocked_by_disabled cBusyEx.state nReadEx .ok cBusyEx).1
      (by decide),
   (duplicate_commands_blocked_by_disabled cBusyEx.state nReadEx .ok cBusyEx).2.1
      (by decide),
   (duplicate_commands_blocked_by_disabled cBusyEx.state nReadEx .ok cBusyEx).2.2
      rfl⟩

/-- Counterexample for C7: at the moment the service request is issued, the
local notifications are still untouched — no optimistic state transition has
been applied, for `handleMarkRead` and `handleAcceptInvitation` alike. -/
theorem no_optimistic_transition_cex :
    (handleMarkReadPre nUnreadEx cIdleEx).2 = true ∧
    (handleMarkReadPre nUnreadEx cIdleEx).1.state.notifications
      = cIdleEx.state.notifications ∧
    nUnreadEx ∈ cIdleEx.state.notifications ∧
    nUnreadEx.is_read = false ∧
    (handleAcceptPre nInviteEx cIdleEx).1.state.notifications
      = cIdleEx.state.notifications ∧
    nInviteEx ∈ cIdleEx.state.notifications ∧
    invitationAcceptedFlag nInviteEx = false := by
  refine ⟨by decide, by decide, by decide, by decide, by decide, by decide,
    by decide⟩

/-- Claim C7 (amended): for an action on a notification not already in flight,
the client adds the id to the in-flight marker before issuing the service
call, leaves the notifications list unchanged until the response, and on a
successful response applies the state transition locally and clears the
in-flight marker. -/
theorem inflight_then_apply_after_response (c : Component) (n : Notification)
    (h : c.mounted = true) (hr : n.is_read = false)
    (hm : n.id ∉ c.state.markingIds) :
    ((handleMarkReadPre n c).1.state.markingIds = n.id :: c.state.markingIds) ∧
    ((handleMarkReadPre n c).1.state.notifications = c.state.notifications) ∧
    ((handleMarkReadPre n c).2 = true) ∧
    ((handleMarkRead .ok n c).1.state.notifications
      = c.state.notifications.map
        (fun m => if m.id = n.id then { m with is_read := true } else m)) ∧
    ((handleMarkRead .ok n c).1.state.markingIds = c.state.markingIds) ∧
    ((handleAcceptPre n c).1.state.acceptingId = some n.id) ∧
    ((handleAcceptPre n c).1.state.notifications = c.state.notifications) ∧
    ((handleAcceptInvitation .ok n c).1.state.acceptingId = none) := by
  have herase : (c.state.markingIds.insert n.id).erase n.id = c.state.markingIds := by
    rw [List.insert_of_not_mem hm, List.erase_cons_head]
  refine ⟨?_, ?_, ?_, ?_, ?_, ?_, ?_, ?_⟩ <;>
    simp [handleMarkReadPre, handleMarkRead, handleAcceptPre,
      handleAcceptInvitation, hr, setStateSafely, h, markReadPendingUpdate,
      markReadSuccessUpdate, acceptPendingUpdate, acceptSuccessUpdate, herase,
      List.insert_of_not_mem hm]

/-- Witness for C7 (amended) at `cIdleEx` and `nUnreadEx`. -/
theorem inflight_then_apply_after_response_app :
    (handleMarkReadPre nUnreadEx cIdleEx).1.state.markingIds
      = nUnreadEx.id :: cIdleEx.state.markingIds ∧
    (handleMarkRead .ok nUnreadEx cIdleEx).1.state.markingIds
      = cIdleEx.state.markingIds :=
  ⟨(inflight_then_apply_after_response cIdleEx nUnreadEx rfl rfl (by decide)).1,
   (inflight_then_apply_after_response cIdleEx nUnreadEx rfl rfl
      (by decide)).2.2.2.2.1⟩

theorem runAccepts_already_accepted (j : Nat) (g : Nat) :
    runAccepts j { accepted := true, grantCount := g }
      = (List.replicate j .AlreadyGranted, { accepted := true, grantCount := g }) := by
  induction j with
  | zero => rfl
  | succ j ih =>
    simp [runAccepts, resolveInvitation, casInvitationAccepted, ih,
      List.replicate]

/-- Claim C1: for any number `k ≥ 1` of concurrent `acceptInvitation` callers
racing on the same pending invitation (each caller's compare-and-set being one
atomic step, so no partially-applied state is ever observable), exactly one
caller observes the accepting outcome and exactly one membership grant is
issued; every other caller observes `AlreadyGranted`. -/
theorem runAccepts_exactly_one_grant (k : Nat) (hk : 1 ≤ k) :
    (runAccepts k { accepted := false, grantCount := 0 }).1
      = .Granted :: List.replicate (k - 1) .AlreadyGranted ∧
    (runAccepts k { accepted := false, grantCount := 0 }).2.accepted = true ∧
    (runAccepts k { accepted := false, grantCount := 0 }).2.grantCount = 1 := by
  match k, hk with
  | j + 1, _ =>
    have hfirst : resolveInvitation { accepted := false, grantCount := 0 }
        = (.Granted, { accepted := true, grantCount := 1 }) := rfl
    simp [runAccepts, hfirst, runAccepts_already_accepted j 1]

/-- Witness for C1 with three concurrent callers. -/
theorem runAccepts_exactly_one_grant_app :
    (runAccepts 3 { accepted := false, grantCount := 0 }).1
      = .Granted :: List.replicate 2 .AlreadyGranted ∧
    (runAccepts 3 { accepted := false, grantCount := 0 }).2.accepted = true ∧
    (runAccepts 3 { accepted := false, grantCount := 0 }).2.grantCount = 1 :=
  runAccepts_exactly_one_grant 3 (by decide)

theorem length_filter_read_split (l : List Notification) :
    (l.filter (fun n => n.is_read = false)).length
      + (l.filter (fun n => n.is_read = true)).length = l.length := by
  induction l with
  | nil => rfl
  | cons a l ih =>
    cases ha : a.is_read <;> simp [List.filter_cons, ha] at ih ⊢ <;> omega

/-- Claim C6: `markAllRead` on a list with `N` unread and `M` read
notifications returns exactly `N` (not `N + M`), and afterwards every
notification — including the client's local copies after a successful
`handleMarkAll` — has `is_read = true`. -/
theorem markAllRead_count_exact (l : List Notification) (N M : Nat)
    (c : Component)
    (hN : (l.filter (fun n => n.is_read = false)).length = N)
    (hM : (l.filter (fun n => n.is_read = true)).length = M)
    (h : c.mounted = true) :
    (serverMarkAllRead l).2 = N ∧
    N + M = l.length ∧
    (∀ n ∈ (serverMarkAllRead l).1, n.is_read = true) ∧
    (∀ m ∈ (handleMarkAll .ok c).1.state.notifications, m.is_read = true) := by
  refine ⟨hN, ?_, ?_, ?_⟩
  · rw [← hN, ← hM]
    exact length_filter_read_split l
  · intro n hn
    rcases List.mem_map.mp hn with ⟨n0, _, hn0⟩
    rw [← hn0]
  · intro m hm
    have hm' : m ∈ c.state.notifications.map (fun m => { m with is_read := true }) := by
      simpa [handleMarkAll, setStateSafely, h, markAllPendingUpdate,
        markAllSuccessUpdate] using hm
    rcases List.mem_map.mp hm' with ⟨m0, _, hm0⟩
    rw [← hm0]

/-- Witness for C6 on `lMixedEx` (two unread, one read) and `cIdleEx`. -/
theorem markAllRead_count_exact_app :
    (serverMarkAllRead lMixedEx).2 = 2 ∧ 2 + 1 = lMixedEx.length :=
  ⟨(markAllRead_count_exact lMixedEx 2 1 cIdleEx (by decide) (by decide) rfl).1,
   (markAllRead_count_exact lMixedEx 2 1 cIdleEx (by decide) (by decide)
      rfl).2.1⟩

theorem find?_map_pres (f : Notification → Notification)
    (p : Notification → Bool) (hp : ∀ m, p (f m) = p m) :
    ∀ l : List Notification, (l.map f).find? p = (l.find? p).map f := by
  intro l
  induction l with
  | nil => rfl
  | cons a l ih =>
    cases hpa : p a with
    | true =>
      rw [List.map_cons, List.find?_cons_of_pos _ (by rw [hp a]; exact hpa),
        List.find?_cons_of_pos _ hpa]
      rfl
    | false =>
      rw [List.map_cons, List.find?_cons_of_neg _ (by simp [hp a, hpa]),
        List.find?_cons_of_neg _ (by simp [hpa]), ih]

/-- Claim C5: `markRead` is idempotent on the client: invoking `handleMarkRead`
(as dispatched on the record currently in state) on an already-read
notification issues no service request and leaves the component unchanged, so
a second successful invocation yields the same state as the first, with
`is_read = true` after either. -/
theorem handleMarkRead_idempotent (c : Component) (nid : Nat) (n : Notification)
    (h : c.mounted = true)
    (hf : c.state.notifications.find? (fun m => m.id == nid) = some n) :
    (n.is_read = true → handleMarkReadOn .ok nid c = (c, false)) ∧
    ((handleMarkReadOn .ok nid ((handleMarkReadOn .ok nid c).1)).1
      = (handleMarkReadOn .ok nid c).1) ∧
    (∀ m, ((handleMarkReadOn .ok nid c).1).state.notifications.find?
        (fun m => m.id == nid) = some m → m.is_read = true) := by
  have hid : n.id = nid := by simpa using List.find?_some hf
  subst hid
  cases ha : n.is_read with
  | true =>
    have honce : handleMarkReadOn .ok n.id c = (c, false) := by
      simp [handleMarkReadOn, hf, handleMarkRead, ha]
    refine ⟨fun _ => honce, by simp [honce], ?_⟩
    intro m hm
    simp [honce, hf] at hm
    subst hm
    exact ha
  | false =>
    have hp : ∀ m : Notification,
        ((if m.id = n.id then { m with is_read := true } else m).id == n.id)
          = (m.id == n.id) := by
      intro m
      by_cases hm : m.id = n.id <;> simp [hm]
    have hnotif1 : ((handleMarkReadOn .ok n.id c).1).state.notifications
        = c.state.notifications.map
          (fun m => if m.id = n.id then { m with is_read := true } else m) := by
      simp [handleMarkReadOn, hf, handleMarkRead, ha, setStateSafely, h,
        markReadPendingUpdate, markReadSuccessUpdate]
    have hfind1 : ((handleMarkReadOn .ok n.id c).1).state.notifications.find?
        (fun m => m.id == n.id) = some { n with is_read := true } := by
      rw [hnotif1, find?_map_pres _ _ hp, hf]
      simp
    refine ⟨?_, ?_, ?_⟩
    · intro hcontra
      exact absurd hcontra (by decide)
    · generalize hgen : (handleMarkReadOn .ok n.id c).1 = c1 at hfind1 ⊢
      simp [handleMarkReadOn, hfind1, handleMarkRead]
    · intro m hm
      rw [hfind1] at hm
      simp at hm
      subst hm
      rfl

/-- Witness for C5: a second `markRead` on the same id of `cIdleEx` leaves the
state of the first invocation unchanged. -/
theorem handleMarkRead_idempotent_app :
    (handleMarkReadOn .ok 1 ((handleMarkReadOn .ok 1 cIdleEx).1)).1
      = (handleMarkReadOn .ok 1 cIdleEx).1 :=
  (handleMarkRead_idempotent cIdleEx 1 nUnreadEx rfl (by decide)).2.1

theorem notifMono_refl (a : Notification) : notifMono a a :=
  ⟨fun hr => hr, fun hacc => hacc⟩

theorem notifMono_trans {a b c : Notification} (h1 : notifMono a b)
    (h2 : notifMono b c) : notifMono a c :=
  ⟨fun hr => h2.1 (h1.1 hr), fun hacc => h2.2 (h1.2 hacc)⟩

theorem forall₂_notifMono_refl :
    ∀ l : List Notification, List.Forall₂ notifMono l l
  | [] => List.Forall₂.nil
  | a :: l => List.Forall₂.cons (notifMono_refl a) (forall₂_notifMono_refl l)

theorem forall₂_notifMono_trans {l1 l2 l3 : List Notification}
    (h12 : List.Forall₂ notifMono l1 l2) (h23 : List.Forall₂ notifMono l2 l3) :
    List.Forall₂ notifMono l1 l3 := by
  induction h12 generalizing l3 with
  | nil =>
    cases h23
    exact List.Forall₂.nil
  | cons hab h ih =>
    cases h23 with
    | cons hbc h' => exact List.Forall₂.cons (notifMono_trans hab hbc) (ih h')

theorem markRead_step_mono (res : SvcResult) (n : Notification) (c : Component) :
    List.Forall₂ notifMono c.state.notifications
      ((handleMarkRead res n c).1).state.notifications := by
  cases hmt : c.mounted with
  | false =>
    rw [handleMarkRead_unmounted res n c hmt]
    exact forall₂_notifMono_refl _
  | true =>
    cases hr : n.is_read with
    | true =>
      have hres : (handleMarkRead res n c).1 = c := by
        simp [handleMarkRead, hr]
      rw [hres]
      exact forall₂_notifMono_refl _
    | false =>
      cases res with
      | ok =>
        have hres : ((handleMarkRead .ok n c).1).state.notifications
            = c.state.notifications.map
              (fun m => if m.id = n.id then { m with is_read := true } else m) := by
          simp [handleMarkRead, hr, setStateSafely, hmt, markReadPendingUpdate,
            markReadSuccessUpdate]
        rw [hres]
        apply forall₂_map_self
        intro a
        by_cases hc : a.id = n.id <;>
          simp [hc, notifMono, invitationAcceptedFlag]
      | err msg =>
        have hres : ((handleMarkRead (.err msg) n c).1).state.notifications
            = c.state.notifications := by
          simp [handleMarkRead, hr, setStateSafely, hmt, markReadPendingUpdate,
            markReadErrorUpdate]
        rw [hres]
        exact forall₂_notifMono_refl _

theorem markAll_step_mono (res : SvcResult) (c : Component) :
    List.Forall₂ notifMono c.state.notifications
      ((handleMarkAll res c).1).state.notifications := by
  cases hmt : c.mounted with
  | false =>
    rw [handleMarkAll_unmounted res c hmt]
    exact forall₂_notifMono_refl _
  | true =>
    cases res with
    | ok =>
      have hres : ((handleMarkAll .ok c).1).state.notifications
          = c.state.notifications.map (fun m => { m with is_read := true }) := by
        simp [handleMarkAll, setStateSafely, hmt, markAllPendingUpdate,
          markAllSuccessUpdate]
      rw [hres]
      apply forall₂_map_self
      intro a
      simp [notifMono, invitationAcceptedFlag]
    | err msg =>
      have hres : ((handleMarkAll (.err msg) c).1).state.notifications
          = c.state.notifications := by
        simp [handleMarkAll, setStateSafely, hmt, markAllPendingUpdate,
          markAllErrorUpdate]
      rw [hres]
      exact forall₂_notifMono_refl _

theorem accept_step_mono (res : SvcResult) (n : Notification) (c : Component) :
    List.Forall₂ notifMono c.state.notifications
      ((handleAcceptInvitation res n c).1).state.notifications := by
  cases hmt : c.mounted with
  | false =>
    rw [handleAcceptInvitation_unmounted res n c hmt]
    exact forall₂_notifMono_refl _
  | true =>
    cases res with
    | ok =>
      have hres : ((handleAcceptInvitation .ok n c).1).state.notifications
          = c.state.notifications.map
            (fun m => if m.id = n.id then
              { m with is_read := true,
                       invitation := m.invitation.map
                         (fun i => { i with accepted := true }) }
            else m) := by
        simp [handleAcceptInvitation, setStateSafely, hmt, acceptPendingUpdate,
          acceptSuccessUpdate]
      rw [hres]
      apply forall₂_map_self
      intro a
      by_cases hc : a.id = n.id <;> cases hinv : a.invitation <;>
        simp [hc, hinv, notifMono, invitationAcceptedFlag]
    | err msg =>
      have hres : ((handleAcceptInvitation (.err msg) n c).1).state.notifications
          = c.state.notifications := by
        simp [handleAcceptInvitation, setStateSafely, hmt, acceptPendingUpdate,
          acceptErrorUpdate]
      rw [hres]
      exact forall₂_notifMono_refl _

theorem applyHandlerStep_mono (st : HandlerStep) (c : Component) :
    List.Forall₂ notifMono c.state.notifications
      ((applyHandlerStep st c)).state.notifications := by
  cases st with
  | stepMarkRead res n => exact markRead_step_mono res n c
  | stepMarkAll res => exact markAll_step_mono res c
  | stepAccept res n => exact accept_step_mono res n c

/-- Claim C4: over every sequence of invocations of the mutation handlers
(`handleMarkRead`, `handleMarkAll`, `handleAcceptInvitation`, success and
error outcomes alike), no notification's `is_read` flips from true to false
and no `invitation.accepted` flips from true to false in the client state. -/
theorem handler_steps_monotone (l : List HandlerStep) (c : Component) :
    List.Forall₂ notifMono c.state.notifications
      ((runHandlerSteps l c)).state.notifications := by
  induction l generalizing c with
  | nil => exact forall₂_notifMono_refl _
  | cons st l ih =>
    have hstep : runHandlerSteps (st :: l) c
        = runHandlerSteps l (applyHandlerStep st c) := rfl
    rw [hstep]
    exact forall₂_notifMono_trans (applyHandlerStep_mono st c) (ih _)

/-- Witness for C4 at a concrete interleaving on `cIdleEx`. -/
theorem handler_steps_monotone_app :
    List.Forall₂ notifMono cIdleEx.state.notifications
      ((runHandlerSteps
          [HandlerStep.stepMarkRead .ok nUnreadEx,
           HandlerStep.stepAccept (.err "boom") nInviteEx,
           HandlerStep.stepMarkAll .ok]
          cIdleEx)).state.notifications :=
  handler_steps_monotone _ cIdleEx

end WorkSync
